import Mathlib

/-!
Shallow embedding of the dailies-analyzer core (src/src/dailies_analyzer/parser.py
and src/csv_to_org.py) and proofs about the frozen specification claims.

Conventions of the embedding:
* Python strings are modelled as `String` / `List Char`; all offsets are `Nat`
  (every integer in the modelled code originates from digit parsing or string
  lengths, hence is non-negative).
* Python regular-expression operations are modelled by bespoke deterministic
  scanners that reproduce the behaviour of the concrete patterns used by the
  source (leftmost match, non-overlapping continuation after each match,
  greedy/lazy quantifiers resolved as the specific pattern forces).
* `re.sub` passes are modelled by a fuel-driven scanner `subAux`; the fuel is
  always at least the string length plus one, which the scanner never exhausts
  because every match consumes at least one character.
-/

set_option maxRecDepth 100000

namespace Dailies

/-- Python whitespace class `\s` (ASCII range, which covers all inputs handled
by the modelled code): space, tab, newline, carriage return, vertical tab,
form feed. Also the character class used by `str.strip()`. -/
def isPyWs (c : Char) : Bool :=
  c = ' ' || c = '\t' || c = '\n' || c = '\r' || c = '\x0b' || c = '\x0c'

/-- Python `str.strip()` on a character list. -/
def pyStripL (cs : List Char) : List Char :=
  ((cs.dropWhile isPyWs).reverse.dropWhile isPyWs).reverse

/-- Python `str.strip()`. -/
def pyStrip (s : String) : String :=
  String.mk (pyStripL s.data)

/-- Numeric value of a digit string, as produced by Python `int` on a `\d+` match. -/
def digitsVal (ds : List Char) : Nat :=
  ds.foldl (fun a c => a * 10 + (c.toNat - 48)) 0

/-- Does `cs` start with the literal `pat`? -/
def matchLit : List Char → List Char → Bool
  | [], _ => true
  | _ :: _, [] => false
  | p :: ps, c :: cs => p = c && matchLit ps cs

/-- Case-insensitive variant of `matchLit` (for `re.IGNORECASE` literals). -/
def matchLitCI : List Char → List Char → Bool
  | [], _ => true
  | _ :: _, [] => false
  | p :: ps, c :: cs => p.toLower = c.toLower && matchLit' ps cs
where matchLit' : List Char → List Char → Bool
  | [], _ => true
  | _ :: _, [] => false
  | p :: ps, c :: cs => p.toLower = c.toLower && matchLit' ps cs

/-- Index of the first occurrence of literal `pat` in `cs`, if any. -/
def findLit (pat : List Char) : List Char → Option Nat
  | [] => if matchLit pat [] then some 0 else none
  | c :: cs =>
    if matchLit pat (c :: cs) then some 0
    else (findLit pat cs).map (· + 1)

/-- Case-insensitive variant of `findLit`. -/
def findLitCI (pat : List Char) : List Char → Option Nat
  | [] => if matchLitCI pat [] then some 0 else none
  | c :: cs =>
    if matchLitCI pat (c :: cs) then some 0
    else (findLitCI pat cs).map (· + 1)

/-- Python substring containment (`pat in cs`). -/
def hasSub (pat : List Char) (cs : List Char) : Bool :=
  (findLit pat cs).isSome

/-- Python slice `cs[a:b]` for non-negative `a`, `b` (clamped, empty when `a ≥ b`). -/
def pySlice (cs : List Char) (a b : Nat) : List Char :=
  (cs.take b).drop a

/-!  ## Region Locator: `parse_gptel_bounds` (parser.py lines 22-40)  -/

/-- One attempted match of `\((\d+)\s+(\d+)\)` at the head of `cs`: on success,
the two numeric groups and the total number of characters consumed.  The digit
and whitespace runs are maximal, which is exactly what the greedy quantifiers
produce here (the character classes of adjacent atoms are disjoint). -/
def matchPairNew (cs : List Char) : Option (Nat × Nat × Nat) :=
  match cs with
  | '(' :: r0 =>
    let d1 := r0.takeWhile Char.isDigit
    if d1.isEmpty then none else
    let r1 := r0.drop d1.length
    let ws := r1.takeWhile isPyWs
    if ws.isEmpty then none else
    let r2 := r1.drop ws.length
    let d2 := r2.takeWhile Char.isDigit
    if d2.isEmpty then none else
    match r2.drop d2.length with
    | ')' :: _ =>
      some (digitsVal d1, digitsVal d2, 1 + d1.length + ws.length + d2.length + 1)
    | _ => none
  | _ => none

/-- One attempted match of `\((\d+)\s*\.\s*(\d+)\)` at the head of `cs`. -/
def matchPairOld (cs : List Char) : Option (Nat × Nat × Nat) :=
  match cs with
  | '(' :: r0 =>
    let d1 := r0.takeWhile Char.isDigit
    if d1.isEmpty then none else
    let r1 := r0.drop d1.length
    let ws1 := r1.takeWhile isPyWs
    match r1.drop ws1.length with
    | '.' :: r2 =>
      let ws2 := r2.takeWhile isPyWs
      let r3 := r2.drop ws2.length
      let d2 := r3.takeWhile Char.isDigit
      if d2.isEmpty then none else
      match r3.drop d2.length with
      | ')' :: _ =>
        some (digitsVal d1, digitsVal d2,
          1 + d1.length + ws1.length + 1 + ws2.length + d2.length + 1)
      | _ => none
    | _ => none
  | _ => none

/-- `re.findall` for a pair pattern: scan left to right, emit each match and
continue after it, otherwise advance one character. -/
def scanPairs (m : List Char → Option (Nat × Nat × Nat)) :
    Nat → List Char → List (Nat × Nat)
  | 0, _ => []
  | _ + 1, [] => []
  | fuel + 1, c :: cs =>
    match m (c :: cs) with
    | some (a, b, k) => (a, b) :: scanPairs m fuel ((c :: cs).drop k)
    | none => scanPairs m fuel cs

/-- Embedding of `parse_gptel_bounds` (parser.py lines 22-40): dispatch on the
presence of the literal token `response`, then `re.findall` of the matching
pair pattern over the whole string. -/
def parse_gptel_bounds (s : String) : List (Nat × Nat) :=
  if s = "" then []
  else if hasSub ("response".data) s.data then
    scanPairs matchPairNew (s.data.length + 1) s.data
  else
    scanPairs matchPairOld (s.data.length + 1) s.data

example : parse_gptel_bounds "((10 . 20))" = [(10, 20)] := by decide
example : parse_gptel_bounds "((response (10 20) (30 40)))" = [(10, 20), (30, 40)] := by decide
example : parse_gptel_bounds "" = [] := by decide
example : parse_gptel_bounds "((1 2) response)" = [(1, 2)] := by decide
example : parse_gptel_bounds "((20 . 10))" = [(20, 10)] := by decide

/-!  ## Substitution engine for the `re.sub` passes of `strip_org_formatting`  -/

/-- One `re.sub` pass.  The matcher `m` receives a flag telling whether the
current position is a line start (position 0 or preceded by a newline, the
`re.MULTILINE` meaning of `^`) and the remaining characters; it returns the
number of characters the match consumes (always at least one for every pattern
modelled here) together with the replacement text.  On a match the scan
continues after the consumed characters, otherwise it advances one character —
exactly the behaviour of CPython `re.sub`. -/
def subAux (m : Bool → List Char → Option (Nat × List Char)) :
    Nat → Bool → List Char → List Char
  | 0, _, cs => cs
  | _ + 1, _, [] => []
  | fuel + 1, atStart, c :: cs =>
    match m atStart (c :: cs) with
    | some (k, rep) =>
      let consumed := (c :: cs).take k
      rep ++ subAux m fuel (consumed.getLast? = some '\n') ((c :: cs).drop k)
    | none => c :: subAux m fuel (c = '\n') cs

/-- Run one substitution pass over a whole string (fuel = length + 1 suffices:
each step consumes at least one character). -/
def subst (m : Bool → List Char → Option (Nat × List Char)) (cs : List Char) :
    List Char :=
  subAux m (cs.length + 1) true cs

/-- Matcher for `^\*+\s+` (MULTILINE): at a line start, a maximal run of `*`
followed by a maximal non-empty whitespace run (which may span newlines). -/
def mHeadline (atStart : Bool) (cs : List Char) : Option (Nat × List Char) :=
  if !atStart then none else
  let stars := cs.takeWhile (· = '*')
  if stars.isEmpty then none else
  let ws := (cs.drop stars.length).takeWhile isPyWs
  if ws.isEmpty then none else
  some (stars.length + ws.length, [])

/-- Matcher for a `#\+begin_…​.*?#\+end_…` pair (DOTALL, IGNORECASE): the begin
literal, then lazily up to and including the first occurrence of the end
literal. -/
def mBlock (beginLit endLit : List Char) (_ : Bool) (cs : List Char) :
    Option (Nat × List Char) :=
  if matchLitCI beginLit cs then
    match findLitCI endLit (cs.drop beginLit.length) with
    | some i => some (beginLit.length + i + endLit.length, [])
    | none => none
  else none

/-- Matcher for `#\+RESULTS:.*?\n` (no DOTALL): the literal, then lazily up to
and including the first newline. -/
def mResults (_ : Bool) (cs : List Char) : Option (Nat × List Char) :=
  if matchLit ("#+RESULTS:".data) cs then
    match findLit ['\n'] (cs.drop 10) with
    | some i => some (10 + i + 1, [])
    | none => none
  else none

/-- Inner scan for the link pattern `\[\[.*?\]\[?(.*?)\]?\]`: after the
alternatives for `\]\[?` have consumed their characters, scan the lazy group
`(.*?)` (non-newline) followed by `\]?\]` — `]]` closes consuming two
characters, a single `]` closes consuming one. Returns the characters consumed
from this point on and the group text. -/
def linkTryB : Nat → List Char → List Char → Option (Nat × List Char)
  | 0, _, _ => none
  | _ + 1, acc, ']' :: ']' :: _ => some (acc.length + 2, acc.reverse)
  | _ + 1, acc, ']' :: _ => some (acc.length + 1, acc.reverse)
  | _ + 1, _, [] => none
  | _ + 1, _, '\n' :: _ => none
  | fuel + 1, acc, c :: rest => linkTryB fuel (c :: acc) rest

/-- Outer scan for the link pattern: extend the lazy `.*?` before the first
`\]` one character at a time; at each `]` try the `\[?` alternative with the
bracket first, then without; if neither completes, the `]` is absorbed into
the leading group and the scan continues. -/
def linkTryA : Nat → Nat → List Char → Option (Nat × List Char)
  | 0, _, _ => none
  | fuel + 1, lenA, ']' :: after1 =>
    let viaBracket :=
      match after1 with
      | '[' :: after2 =>
        match linkTryB (after2.length + 1) [] after2 with
        | some (k, b) => some (lenA + 2 + k, b)
        | none =>
          match linkTryB (after1.length + 1) [] after1 with
          | some (k, b) => some (lenA + 1 + k, b)
          | none => none
      | _ =>
        match linkTryB (after1.length + 1) [] after1 with
        | some (k, b) => some (lenA + 1 + k, b)
        | none => none
    match viaBracket with
    | some r => some r
    | none => linkTryA fuel (lenA + 1) after1
  | _ + 1, _, [] => none
  | _ + 1, _, '\n' :: _ => none
  | fuel + 1, lenA, _ :: rest => linkTryA fuel (lenA + 1) rest

/-- Matcher for the org link pattern `\[\[.*?\]\[?(.*?)\]?\]` with replacement
`\1` (the display-text group). -/
def mLink (_ : Bool) (cs : List Char) : Option (Nat × List Char) :=
  match cs with
  | '[' :: '[' :: rest =>
    match linkTryA (rest.length + 1) 0 rest with
    | some (k, b) => some (2 + k, b)
    | none => none
  | _ => none

/-- Matcher for `^:PROPERTIES:.*?:END:\s*` (MULTILINE, DOTALL): at a line
start, the literal, lazily up to the first `:END:`, then a maximal whitespace
run. -/
def mProps (atStart : Bool) (cs : List Char) : Option (Nat × List Char) :=
  if !atStart then none else
  if matchLit (":PROPERTIES:".data) cs then
    match findLit (":END:".data) (cs.drop 12) with
    | some i =>
      let afterEnd := cs.drop (12 + i + 5)
      let ws := afterEnd.takeWhile isPyWs
      some (12 + i + 5 + ws.length, [])
    | none => none
  else none

/-- Matcher for `^#\+.*$` (MULTILINE): at a line start, `#+` and the rest of
the line (the terminating newline is not consumed — `$` is zero width). -/
def mDirective (atStart : Bool) (cs : List Char) : Option (Nat × List Char) :=
  if !atStart then none else
  if matchLit ("#+".data) cs then
    some (2 + ((cs.drop 2).takeWhile (· ≠ '\n')).length, [])
  else none

/-- Matcher for `@(user|assistant)\s*`: either literal (the alternation tries
`user` first), then a maximal whitespace run. -/
def mAtRole (_ : Bool) (cs : List Char) : Option (Nat × List Char) :=
  if matchLit ("@user".data) cs then
    some (5 + ((cs.drop 5).takeWhile isPyWs).length, [])
  else if matchLit ("@assistant".data) cs then
    some (10 + ((cs.drop 10).takeWhile isPyWs).length, [])
  else none

/-- Matcher for `\n{3,}` with replacement `\n\n`: a maximal run of at least
three newlines collapses to two. -/
def mBlankRun (_ : Bool) (cs : List Char) : Option (Nat × List Char) :=
  let run := cs.takeWhile (· = '\n')
  if run.length ≥ 3 then some (run.length, ['\n', '\n']) else none

/-- Embedding of `strip_org_formatting` (parser.py lines 76-91): the nine
`re.sub` passes in source order, followed by `str.strip()`. -/
def strip_org_formatting (s : String) : String :=
  let t1 := subst mHeadline s.data
  let t2 := subst (mBlock ("#+begin_src".data) ("#+end_src".data)) t1
  let t3 := subst (mBlock ("#+begin_quote".data) ("#+end_quote".data)) t2
  let t4 := subst (mBlock ("#+begin_example".data) ("#+end_example".data)) t3
  let t5 := subst mResults t4
  let t6 := subst mLink t5
  let t7 := subst mProps t6
  let t8 := subst mDirective t7
  let t9 := subst mAtRole t8
  let t10 := subst mBlankRun t9
  String.mk (pyStripL t10)

example : strip_org_formatting "hello" = "hello" := by decide
example : strip_org_formatting "" = "" := by decide
example : strip_org_formatting "* Heading\ntext" = "Heading\ntext" := by decide
example : strip_org_formatting "#+begin_src\nhello\n#+end_src" = "" := by decide
example : strip_org_formatting "a[[url][text]]b" = "atextb" := by decide
example : strip_org_formatting "a[[url]]b" = "ab" := by decide
example : strip_org_formatting "x\n\n\n\n\ny" = "x\n\ny" := by decide
example : strip_org_formatting "@user hi @assistant yo" = "hi yo" := by decide
example : strip_org_formatting ":PROPERTIES:\n:A: b\n:END:\n\ntext" = "text" := by decide
example : strip_org_formatting "#+RESULTS:\nkeep\n#+foo bar\nkeep2" = "keep\n\nkeep2" := by decide
example : strip_org_formatting "[[a][b]] [[c]]" = "b" := by decide
example : strip_org_formatting "*\n\nX" = "X" := by decide
example : strip_org_formatting "b4[[u][v]" = "b4v" := by decide
example : strip_org_formatting "**  stars" = "stars" := by decide
example : strip_org_formatting "*x" = "*x" := by decide
example : strip_org_formatting "#+BEGIN_SRC py\ncode\n#+END_SRC" = "" := by decide
example : strip_org_formatting "@userx @assistanty" = "x y" := by decide
example : strip_org_formatting "@usr" = "@usr" := by decide
example : strip_org_formatting "pre [[x][y]z] post" = "pre yz] post" := by decide
example : strip_org_formatting "[[x]y] post" = "y post" := by decide
example : strip_org_formatting "a]b[[c][d]]" = "a]bd" := by decide
example : strip_org_formatting "[[]]" = "" := by decide
example : strip_org_formatting "* T\n:PROPERTIES:\n:GPTEL_TOPIC: T\n:END:\n\n*** Response\nH"
    = "T\nResponse\nH" := by decide

/-!  ## Message Extractor: `extract_messages_from_bounds` (parser.py lines 94-154)  -/

/-- Embedding of the `Message` dataclass (models.py): role is the literal
Python string (`"user"` or `"assistant"`), offsets refer to the pre-strip
sub-document. -/
structure Message where
  role : String
  content : String
  char_start : Nat
  char_end : Nat
deriving DecidableEq, Repr

/-- Sort key relation of `sorted(bounds, key=lambda x: x[0])`. -/
def boundLE (a b : Nat × Nat) : Prop := a.1 ≤ b.1

instance : DecidableRel boundLE := fun a b => Nat.decLe a.1 b.1

instance : IsTotal (Nat × Nat) boundLE := ⟨fun a b => Nat.le_total a.1 b.1⟩

instance : IsTrans (Nat × Nat) boundLE := ⟨fun _ _ _ h1 h2 => Nat.le_trans h1 h2⟩

/-- Python's `sorted(bounds, key=lambda x: x[0])` is the stable ascending sort
by first component; `List.insertionSort` with `boundLE` is the same stable
sort. -/
def sortBounds (l : List (Nat × Nat)) : List (Nat × Nat) :=
  l.insertionSort boundLE

/-- One iteration of the sweep of `extract_messages_from_bounds` for a marker
`(s, e)` with the cursor at `cur`: the gap span before the marker (role user,
only when `s > cur`) and the marker span (role assistant), each emitted only
when its stripped content is non-empty. -/
def emStep (cs : List Char) (cur s e : Nat) : List Message :=
  (if s > cur then
    let t := strip_org_formatting (String.mk (pySlice cs cur s))
    if t ≠ "" then [⟨"user", t, cur, s⟩] else []
  else []) ++
  (let t := strip_org_formatting (String.mk (pySlice cs s e))
   if t ≠ "" then [⟨"assistant", t, s, e⟩] else [])

/-- The sweep loop of `extract_messages_from_bounds`: one `emStep` per marker,
then the trailing span after the last marker. -/
def emLoop (cs : List Char) : Nat → List (Nat × Nat) → List Message
  | cur, [] =>
    if cur < cs.length then
      let t := strip_org_formatting (String.mk (pySlice cs cur cs.length))
      if t ≠ "" then [⟨"user", t, cur, cs.length⟩] else []
    else []
  | cur, (s, e) :: rest => emStep cs cur s e ++ emLoop cs e rest

/-- Embedding of `extract_messages_from_bounds` (parser.py lines 94-154). -/
def extract_messages_from_bounds (cs : List Char) (bounds : List (Nat × Nat)) :
    List Message :=
  if bounds = [] then []
  else emLoop cs 0 (sortBounds bounds)

example : extract_messages_from_bounds "hello".data [] = [] := by decide
example : extract_messages_from_bounds "Hello\nHi there\n".data [(6, 14)] =
    [⟨"user", "Hello", 0, 6⟩, ⟨"assistant", "Hi there", 6, 14⟩] := by decide
/-!  ## Properties block: `extract_properties_block` (parser.py lines 43-73)  -/

/-- Embedding of the `GptelProperties` dataclass. -/
structure GptelProperties where
  model : Option String := none
  backend : Option String := none
  system : Option String := none
  bounds : Option (List (Nat × Nat)) := none
  topic : Option String := none
deriving DecidableEq, Repr

/-- Attempt the pattern `:PROPERTIES:\s*\n(.*?):END:` at the head of `cs`
(DOTALL): the literal, then `\s*\n` — a maximal whitespace run backtracked so
that the last consumed character is a newline — then lazily up to the first
`:END:`.  Regex backtracking tries the newline positions inside the whitespace
run from the rightmost down.  Returns the group and the characters consumed. -/
def propsTryAt (cs : List Char) : Option (List Char × Nat) :=
  if matchLit (":PROPERTIES:".data) cs then
    let rest := cs.drop 12
    let run := rest.takeWhile isPyWs
    let descNl := (run.enum.filterMap fun x =>
      if x.2 = '\n' then some x.1 else none).reverse
    tryNl rest descNl
  else none
where
  tryNl (rest : List Char) : List Nat → Option (List Char × Nat)
    | [] => none
    | p :: ps =>
      match findLit (":END:".data) (rest.drop (p + 1)) with
      | some q => some ((rest.drop (p + 1)).take q, 12 + p + 1 + q + 5)
      | none => tryNl rest ps

/-- `re.search` for the properties pattern: leftmost position where
`propsTryAt` succeeds.  Returns the group and the absolute match end. -/
def propsScan : Nat → List Char → Nat → Option (List Char × Nat)
  | 0, _, _ => none
  | _ + 1, [], _ => none
  | fuel + 1, c :: cs, pos =>
    match propsTryAt (c :: cs) with
    | some (g, k) => some (g, pos + k)
    | none => propsScan fuel cs (pos + 1)

/-- Python `line.split(":", 2)[2]`: the text after the second colon (used only
on lines known to start with `:NAME:`). -/
def colonRest2 (cs : List Char) : List Char :=
  match findLit [':'] cs with
  | some i =>
    let r := cs.drop (i + 1)
    match findLit [':'] r with
    | some j => r.drop (j + 1)
    | none => []
  | none => []

/-- Python `text.split("\n")`. -/
def splitNl : Nat → List Char → List (List Char)
  | 0, _ => []
  | fuel + 1, cs =>
    let line := cs.takeWhile (· ≠ '\n')
    match cs.drop line.length with
    | [] => [line]
    | _ :: rest => line :: splitNl fuel rest

/-- One line of the properties text: strip it, dispatch on the property name,
store the stripped value (bounds are decoded with `parse_gptel_bounds`). -/
def updateProp (p : GptelProperties) (line : List Char) : GptelProperties :=
  let l := pyStripL line
  let v : String := String.mk (pyStripL (colonRest2 l))
  if matchLit (":GPTEL_MODEL:".data) l then { p with model := some v }
  else if matchLit (":GPTEL_BACKEND:".data) l then { p with backend := some v }
  else if matchLit (":GPTEL_SYSTEM:".data) l then { p with system := some v }
  else if matchLit (":GPTEL_BOUNDS:".data) l then { p with bounds := some (parse_gptel_bounds v) }
  else if matchLit (":GPTEL_TOPIC:".data) l then { p with topic := some v }
  else p

/-- Embedding of `extract_properties_block` (parser.py lines 43-73) with the
default `start_pos = 0`, the only value the modelled callers use. -/
def extract_properties_block (cs : List Char) : GptelProperties × Nat :=
  match propsScan (cs.length + 1) cs 0 with
  | none => ({}, 0)
  | some (g, endAbs) =>
    ((splitNl (g.length + 1) g).foldl updateProp {}, endAbs)

example :
    (extract_properties_block ":PROPERTIES:\n:GPTEL_BOUNDS: ((1 . 2))\n:GPTEL_TOPIC: t\n:END:\nrest".data).1
      = { bounds := some [(1, 2)], topic := some "t" } := by decide

/-!  ## Section Splitter: `find_top_level_sections` (parser.py lines 175-195)  -/

/-- Embedding of the `Section` dataclass. -/
structure Section where
  title : String
  start_pos : Nat
  end_pos : Nat
  topic : Option String := none
deriving DecidableEq, Repr

/-- All lines of the buffer with their start offsets (the decomposition that
`re.finditer` with `^...$` MULTILINE walks). -/
def linesWithPos : Nat → List Char → Nat → List (Nat × List Char)
  | 0, _, _ => []
  | fuel + 1, cs, pos =>
    match cs.drop ((cs.takeWhile (· ≠ '\n')).length) with
    | [] => [(pos, cs.takeWhile (· ≠ '\n'))]
    | _ :: rest =>
      (pos, cs.takeWhile (· ≠ '\n')) ::
        linesWithPos fuel rest (pos + (cs.takeWhile (· ≠ '\n')).length + 1)

/-- Does a line match `^(\* .+)$` — a single `* ` then at least one character? -/
def lineIsHeading (l : List Char) : Bool :=
  match l with
  | '*' :: ' ' :: _ :: _ => true
  | _ => false

/-- The heading matches of `re.finditer(r"^(\* .+)$", content, re.MULTILINE)`
in buffer order, with their offsets. -/
def headingEntries (cs : List Char) : List (Nat × List Char) :=
  (linesWithPos (cs.length + 1) cs 0).filter fun x => lineIsHeading x.2

/-- Sections before the end-position fix-up: each ends at the buffer length. -/
def rawSections (cs : List Char) : List Section :=
  (headingEntries cs).map fun x =>
    ⟨String.mk (pyStripL (x.2.drop 2)), x.1, cs.length, none⟩

/-- The fix-up loop `sections[i].end_pos = sections[i+1].start_pos`. -/
def fixEnds : List Section → List Section
  | [] => []
  | [a] => [a]
  | a :: b :: rest => { a with end_pos := b.start_pos } :: fixEnds (b :: rest)

/-- Embedding of `find_top_level_sections` (parser.py lines 175-195), including
the per-section `GPTEL_TOPIC` extraction. -/
def find_top_level_sections (cs : List Char) : List Section :=
  (fixEnds (rawSections cs)).map fun sec =>
    { sec with
      topic := (extract_properties_block (pySlice cs sec.start_pos sec.end_pos)).1.topic }

example : find_top_level_sections "head\n* One\nbody\n* Two\ntail".data =
    [⟨"One", 5, 16, none⟩, ⟨"Two", 16, 26, none⟩] := by decide

/-!  ## Region-to-section assignment and `parse_org_file` (parser.py lines 198-276)  -/

/-- Embedding of `filter_bounds_for_section` (parser.py lines 198-206). -/
def filter_bounds_for_section (bounds : List (Nat × Nat)) (section_start section_end : Nat) :
    List (Nat × Nat) :=
  bounds.filter fun p => section_start ≤ p.1 && p.2 ≤ section_end

/-- Embedding of the `Conversation` dataclass restricted to the fields the
string-processing core populates (`file_path` and `date` only repackage the
filename, which is outside the modelled content pipeline). -/
structure Conversation where
  topic : Option String := none
  model : Option String := none
  system_prompt : Option String := none
  messages : List Message
deriving DecidableEq, Repr

/-- Python `section.topic or section.title` (a `None` or empty topic falls
back to the title). -/
def convTopic (sec : Section) : String :=
  match sec.topic with
  | some t => if t = "" then sec.title else t
  | none => sec.title

/-- The body of the per-section loop of `parse_org_file`: filter the file-level
bounds to the section, re-base them by the section start, extract messages
from the section slice; a section with no bounds or no messages contributes
nothing. -/
def sectionConversation (cs : List Char) (fileProps : GptelProperties)
    (bs : List (Nat × Nat)) (sec : Section) : Option Conversation :=
  let sb := filter_bounds_for_section bs sec.start_pos sec.end_pos
  if sb = [] then none
  else
    let adj := sb.map fun p => (p.1 - sec.start_pos, p.2 - sec.start_pos)
    let msgs := extract_messages_from_bounds (pySlice cs sec.start_pos sec.end_pos) adj
    if msgs = [] then none
    else some ⟨some (convTopic sec), fileProps.model, fileProps.system, msgs⟩

/-- Embedding of `parse_org_file` (parser.py lines 209-276) on the file
content (the file read and filename-date parsing are I/O outside the modelled
core). -/
def parseOrgFile (content : String) : List Conversation :=
  let cs := content.data
  let fileProps := (extract_properties_block cs).1
  match fileProps.bounds with
  | none => []
  | some bs =>
    if bs = [] then []
    else
      let sections := find_top_level_sections cs
      if sections = [] then
        let msgs := extract_messages_from_bounds cs bs
        if msgs = [] then []
        else [⟨fileProps.topic, fileProps.model, fileProps.system, msgs⟩]
      else sections.filterMap (sectionConversation cs fileProps bs)

/-!  ## Bounds Serializer: `markdown_to_org` and `build_org_file` (csv_to_org.py)  -/

/-- Matcher for inline code `` `([^`]+)` `` with replacement `~\1~`. -/
def mInlineCode (_ : Bool) (cs : List Char) : Option (Nat × List Char) :=
  match cs with
  | '`' :: rest =>
    let run := rest.takeWhile (· ≠ '`')
    if run.isEmpty then none
    else
      match rest.drop run.length with
      | '`' :: _ => some (1 + run.length + 1, '~' :: (run ++ ['~']))
      | _ => none
  | _ => none

/-- Lazy scan for the bold group `(.+?)` followed by `\*\*`: consume at least
one character, then close at the earliest `**`. -/
def boldScan : Nat → List Char → List Char → Option (Nat × List Char)
  | 0, _, _ => none
  | fuel + 1, acc, rest =>
    if acc.isEmpty then
      match rest with
      | [] => none
      | '\n' :: _ => none
      | c :: rs => boldScan fuel [c] rs
    else
      match rest with
      | '*' :: '*' :: _ => some (acc.length + 2, acc.reverse)
      | [] => none
      | '\n' :: _ => none
      | c :: rs => boldScan fuel (c :: acc) rs

/-- Matcher for bold `\*\*(.+?)\*\*` with replacement `*\1*`. -/
def mBold (_ : Bool) (cs : List Char) : Option (Nat × List Char) :=
  match cs with
  | '*' :: '*' :: rest =>
    match boldScan (rest.length + 1) [] rest with
    | some (k, g) => some (2 + k, '*' :: (g ++ ['*']))
    | none => none
  | _ => none

/-- Matcher for images `!\[([^\]]*)\]\(([^)]+)\)` with replacement `[[\2]]`. -/
def mImage (_ : Bool) (cs : List Char) : Option (Nat × List Char) :=
  match cs with
  | '!' :: '[' :: rest =>
    let alt := rest.takeWhile (· ≠ ']')
    match rest.drop alt.length with
    | ']' :: '(' :: r2 =>
      let url := r2.takeWhile (· ≠ ')')
      if url.isEmpty then none
      else
        match r2.drop url.length with
        | ')' :: _ =>
          some (2 + alt.length + 2 + url.length + 1, "[[".data ++ url ++ "]]".data)
        | _ => none
    | _ => none
  | _ => none

/-- Matcher for links `\[([^\]]+)\]\(([^)]+)\)` with replacement `[[\2][\1]]`. -/
def mLinkMd (_ : Bool) (cs : List Char) : Option (Nat × List Char) :=
  match cs with
  | '[' :: rest =>
    let txt := rest.takeWhile (· ≠ ']')
    if txt.isEmpty then none
    else
      match rest.drop txt.length with
      | ']' :: '(' :: r2 =>
        let url := r2.takeWhile (· ≠ ')')
        if url.isEmpty then none
        else
          match r2.drop url.length with
          | ')' :: _ =>
            some (1 + txt.length + 2 + url.length + 1,
              "[[".data ++ url ++ "][".data ++ txt ++ "]]".data)
          | _ => none
      | _ => none
  | _ => none

/-- `re.match(r"^(#{1,6})\s+(.*)", line)`: one to six `#` (a seventh makes the
whole match fail), a non-empty whitespace run, then the heading text. -/
def mdHeading (line : List Char) : Option (Nat × List Char) :=
  let hs := line.takeWhile (· = '#')
  if 1 ≤ hs.length ∧ hs.length ≤ 6 then
    let ws := (line.drop hs.length).takeWhile isPyWs
    if ws.isEmpty then none
    else some (hs.length, line.drop (hs.length + ws.length))
  else none

/-- `"\n".join`. -/
def joinNl : List (List Char) → List Char
  | [] => []
  | [l] => l
  | l :: rest => l ++ '\n' :: joinNl rest

/-- The per-line loop of `markdown_to_org` with the `in_code_block` flag. -/
def mdLines : List (List Char) → Bool → List (List Char)
  | [], _ => []
  | line :: rest, inCode =>
    let stripped := pyStripL line
    if matchLit ("```".data) stripped then
      if inCode then "#+end_src".data :: mdLines rest false
      else
        let lang := pyStripL (stripped.drop 3)
        (if lang.isEmpty then "#+begin_src".data else "#+begin_src ".data ++ lang) ::
          mdLines rest true
    else if inCode then line :: mdLines rest true
    else
      match mdHeading line with
      | some (level, text) =>
        (List.replicate (level + 3) '*' ++ ' ' :: text) :: mdLines rest false
      | none =>
        let l1 := subst mInlineCode line
        let l2 := subst mBold l1
        let l3 := subst mImage l2
        let l4 := subst mLinkMd l3
        l4 :: mdLines rest false

/-- Embedding of `markdown_to_org` (csv_to_org.py lines 47-88). -/
def markdown_to_org (s : String) : String :=
  String.mk (joinNl (mdLines (splitNl (s.data.length + 1) s.data) false))

example : markdown_to_org "## Title\n\n```python\nprint(1)\n```" =
    "***** Title\n\n#+begin_src python\nprint(1)\n#+end_src" := by decide
example : markdown_to_org "a `x` **b** [t](u) ![i](v)" =
    "a ~x~ *b* [[u][t]] [[v]]" := by decide
example : markdown_to_org "####### seven\n### three" = "####### seven\n****** three" := by
  decide
example : markdown_to_org "***bold***" = "**bold**" := by decide
example : markdown_to_org "``empty``" = "`~empty~`" := by decide

/-- A message dict of the build path (`{"role": ..., "content": ...}`). -/
structure BMsg where
  role : String
  content : String
deriving DecidableEq, Repr

/-- A conversation dict of the build path (`{"topic": ..., "messages": ...}`). -/
structure BConv where
  topic : String
  messages : List BMsg
deriving DecidableEq, Repr

/-- The user-message sub-heading text: first line of the content, stripped,
truncated to 57 characters plus `...` when longer than 60. -/
def truncFirstLine (content : String) : List Char :=
  let fl := pyStripL ((splitNl (content.data.length + 1) content.data).headD [])
  if fl.length > 60 then fl.take 57 ++ "...".data else fl

/-- The message loop of Phase 1 of `build_org_file`: append each message to the
body, recording the body-relative `(start, end)` span of each rendered
assistant content. -/
def emitMsgs (body : List Char) (pos : List (Nat × Nat)) :
    List BMsg → List Char × List (Nat × Nat)
  | [] => (body, pos)
  | m :: rest =>
    if m.role = "user" then
      emitMsgs (body ++ "** ".data ++ truncFirstLine m.content ++ '\n' :: m.content.data
        ++ "\n\n".data) pos rest
    else
      let rendered := (markdown_to_org m.content).data
      let s := (body ++ "*** Response\n".data).length
      emitMsgs (body ++ "*** Response\n".data ++ rendered ++ "\n\n".data)
        (pos ++ [(s, s + rendered.length)]) rest

/-- The conversation loop of Phase 1 of `build_org_file`: headline plus local
properties block, then the messages. -/
def emitConvs (body : List Char) (pos : List (Nat × Nat)) :
    List BConv → List Char × List (Nat × Nat)
  | [] => (body, pos)
  | conv :: rest =>
    let header := "* ".data ++ conv.topic.data ++ '\n' :: ":PROPERTIES:\n".data
      ++ ":GPTEL_TOPIC: ".data ++ conv.topic.data ++ '\n' :: ":END:\n\n".data
    match emitMsgs (body ++ header) pos conv.messages with
    | (b2, p2) => emitConvs b2 p2 rest

/-- Phase 1 of `build_org_file`: the body text and the assistant spans. -/
def buildBody (convs : List BConv) : List Char × List (Nat × Nat) :=
  emitConvs [] [] convs

/-- The file-level properties block for a given encoded bounds string. -/
def propsOf (b : List Char) : List Char :=
  ":PROPERTIES:\n:GPTEL_BOUNDS: ".data ++ b ++ "\n:END:\n\n".data

/-- `" ".join` of encoded pairs. -/
def joinSp : List (List Char) → List Char
  | [] => []
  | [l] => l
  | l :: rest => l ++ ' ' :: joinSp rest

/-- Encoding `(s e)` of one absolute pair. -/
def pairChars (p : Nat × Nat) : List Char :=
  '(' :: ((toString p.1).data ++ ' ' :: (toString p.2).data) ++ [')']

/-- One iteration of the Phase 2 fixed-point loop: shift the body-relative
spans by the current header length plus one and re-encode. -/
def boundsStep (pos : List (Nat × Nat)) (b : List Char) : List Char :=
  let offset := (propsOf b).length
  "((response ".data
    ++ joinSp (pos.map fun p => pairChars (p.1 + offset + 1, p.2 + offset + 1))
    ++ "))".data

/-- The bounded fixed-point loop (`for _ in range(10)` with early exit on
stability; on non-convergence the last computed value is used). -/
def boundsFixAux (pos : List (Nat × Nat)) : Nat → List Char → List Char
  | 0, b => b
  | fuel + 1, b =>
    let nb := boundsStep pos b
    if nb = b then b else boundsFixAux pos fuel nb

/-- Embedding of `build_org_file` (csv_to_org.py lines 102-156). -/
def buildOrgFile (convs : List BConv) : String :=
  match buildBody convs with
  | (body, pos) =>
    if pos = [] then String.mk body
    else String.mk (propsOf (boundsFixAux pos 10 ("((response))".data)) ++ body)

/-!  ## Spec-side definitions

The spec (§4.3) describes the sweep as producing one candidate span per gap,
one per marker, and one trailing candidate, each emitted only when non-blank
after stripping.  `candLoop`/`extractCandidates` formalise that candidate
sequence (without the emptiness filter); the claims relate the code's output
to it. -/

/-- The full candidate sequence of the sweep: gap candidate (role user), marker
candidate (role assistant) for each marker, then the trailing candidate. -/
def candLoop (cs : List Char) : Nat → List (Nat × Nat) → List Message
  | cur, [] =>
    [⟨"user", strip_org_formatting (String.mk (pySlice cs cur cs.length)), cur, cs.length⟩]
  | cur, (s, e) :: rest =>
    ⟨"user", strip_org_formatting (String.mk (pySlice cs cur s)), cur, s⟩ ::
    ⟨"assistant", strip_org_formatting (String.mk (pySlice cs s e)), s, e⟩ ::
    candLoop cs e rest

/-- Candidate sequence for a marker list (empty for no markers, mirroring the
early return of the code). -/
def extractCandidates (cs : List Char) (bounds : List (Nat × Nat)) : List Message :=
  if bounds = [] then [] else candLoop cs 0 (sortBounds bounds)

/-- Keep a candidate iff its stripped content is non-empty. -/
def msgKeep (m : Message) : Bool := decide (m.content ≠ "")

/-- The cursor position after the sweep has processed all markers: the end of
the last marker in sorted order (0 when there are none). -/
def finalCursor (bounds : List (Nat × Nat)) : Nat :=
  match (sortBounds bounds).getLast? with
  | some p => p.2
  | none => 0

/-!  ## General lemmas about the embedding  -/

theorem strip_org_formatting_empty : strip_org_formatting "" = "" := by decide

theorem pySlice_eq_nil {cs : List Char} {a b : Nat} (h : b ≤ a ∨ cs.length ≤ a) :
    pySlice cs a b = [] := by
  apply List.drop_eq_nil_of_le
  rcases h with h | h
  · exact le_trans (le_trans (List.length_take_le b cs) h) (le_refl a)
  · exact le_trans (List.length_take_le' b cs) h

/-- The code's sweep output is exactly the candidate sequence filtered by
non-blank stripped content. -/
theorem emLoop_eq_filter (cs : List Char) :
    ∀ (l : List (Nat × Nat)) (cur : Nat),
      emLoop cs cur l = (candLoop cs cur l).filter msgKeep := by
  intro l
  induction l with
  | nil =>
    intro cur
    simp only [emLoop, candLoop, List.filter_cons, List.filter_nil, msgKeep]
    by_cases hlt : cur < cs.length
    · by_cases hne : strip_org_formatting (String.mk (pySlice cs cur cs.length)) = "" <;>
        simp [hlt, hne]
    · have hs : pySlice cs cur cs.length = [] :=
        pySlice_eq_nil (Or.inr (Nat.le_of_not_lt hlt))
      simp [hlt, hs, strip_org_formatting_empty]
  | cons p rest ih =>
    intro cur
    obtain ⟨s, e⟩ := p
    simp only [emLoop, emStep, candLoop, List.filter_cons, msgKeep]
    rw [ih e]
    by_cases hgt : s > cur
    · by_cases hne : strip_org_formatting (String.mk (pySlice cs cur s)) = "" <;>
        by_cases hne2 : strip_org_formatting (String.mk (pySlice cs s e)) = "" <;>
          simp [hgt, hne, hne2]
    · have hs : pySlice cs cur s = [] :=
        pySlice_eq_nil (Or.inl (Nat.le_of_not_lt hgt))
      by_cases hne2 : strip_org_formatting (String.mk (pySlice cs s e)) = "" <;>
        simp [hgt, hs, strip_org_formatting_empty, hne2]

theorem extract_eq_filter_candidates (cs : List Char) (bounds : List (Nat × Nat)) :
    extract_messages_from_bounds cs bounds = (extractCandidates cs bounds).filter msgKeep := by
  unfold extract_messages_from_bounds extractCandidates
  by_cases hb : bounds = []
  · simp [hb]
  · simp [hb, emLoop_eq_filter]

theorem candLoop_length (cs : List Char) :
    ∀ (l : List (Nat × Nat)) (cur : Nat), (candLoop cs cur l).length = 2 * l.length + 1 := by
  intro l
  induction l with
  | nil => intro cur; simp [candLoop]
  | cons p rest ih =>
    intro cur
    obtain ⟨s, e⟩ := p
    simp only [candLoop, List.length_cons, ih e, List.length]
    omega

theorem candLoop_head (cs : List Char) (l : List (Nat × Nat)) (cur : Nat) :
    ∃ t ce rest, candLoop cs cur l = Message.mk "user" t cur ce :: rest := by
  cases l with
  | nil => exact ⟨_, _, _, rfl⟩
  | cons p rest => obtain ⟨s, e⟩ := p; exact ⟨_, _, _, rfl⟩

/-- Candidate roles strictly alternate (user, assistant, user, …). -/
theorem candLoop_chain (cs : List Char) :
    ∀ (l : List (Nat × Nat)) (cur : Nat),
      List.Chain' (fun m1 m2 : Message => m1.role ≠ m2.role) (candLoop cs cur l) := by
  intro l
  induction l with
  | nil => intro cur; simp [candLoop]
  | cons p rest ih =>
    intro cur
    obtain ⟨s, e⟩ := p
    simp only [candLoop]
    obtain ⟨t, ce, tl, htl⟩ := candLoop_head cs rest e
    refine List.Chain'.cons (by simp) ?_
    rw [htl]
    refine List.Chain'.cons (by simp) ?_
    rw [← htl]
    exact ih e

/-- `sorted` of an already sorted list is the identity, hence sorting twice is
sorting once. -/
theorem sortBounds_idem (l : List (Nat × Nat)) : sortBounds (sortBounds l) = sortBounds l :=
  List.Sorted.insertionSort_eq (List.sorted_insertionSort boundLE l)

theorem sortBounds_ne_nil {l : List (Nat × Nat)} (h : l ≠ []) : sortBounds l ≠ [] := by
  intro hc
  apply h
  have := congrArg List.length hc
  simpa [sortBounds] using List.length_eq_zero.mp (by simpa [sortBounds] using this)

/-- Decomposition of the sweep: everything before the trailing step, then the
trailing step at the final cursor. -/
theorem emLoop_decomp (cs : List Char) :
    ∀ (l : List (Nat × Nat)) (cur : Nat),
      ∃ ms, emLoop cs cur l =
        ms ++ emLoop cs (match l.getLast? with | some p => p.2 | none => cur) [] := by
  intro l
  induction l with
  | nil => intro cur; exact ⟨[], by simp⟩
  | cons p rest ih =>
    intro cur
    obtain ⟨s, e⟩ := p
    obtain ⟨ms, hms⟩ := ih e
    refine ⟨emStep cs cur s e ++ ms, ?_⟩
    have h1 : emLoop cs cur ((s, e) :: rest) = emStep cs cur s e ++ emLoop cs e rest := rfl
    have h2 : (match ((s, e) :: rest).getLast? with | some p => p.2 | none => cur) =
        (match rest.getLast? with | some p => p.2 | none => e) := by
      cases rest with
      | nil => rfl
      | cons q rest2 =>
        rw [List.getLast?_cons_cons,
          List.getLast?_eq_getLast (q :: rest2) (List.cons_ne_nil q rest2)]
    rw [h1, hms, h2, List.append_assoc]

/-!  ## Section-start monotonicity (for the pre-heading marker claim)  -/

theorem linesWithPos_ge :
    ∀ (fuel : Nat) (cs : List Char) (pos : Nat) (x : Nat × List Char),
      x ∈ linesWithPos fuel cs pos → pos ≤ x.1 := by
  intro fuel
  induction fuel with
  | zero => intro cs pos x h; simp [linesWithPos] at h
  | succ n ih =>
    intro cs pos x h
    rw [linesWithPos] at h
    cases hd : cs.drop ((cs.takeWhile (· ≠ '\n')).length) with
    | nil =>
      rw [hd] at h
      simp only [List.mem_singleton] at h
      subst h; exact le_refl pos
    | cons c rest =>
      rw [hd] at h
      rcases List.mem_cons.mp h with h1 | h2
      · subst h1; exact le_refl pos
      · exact le_trans (by omega) (ih rest _ x h2)

theorem linesWithPos_pairwise :
    ∀ (fuel : Nat) (cs : List Char) (pos : Nat),
      List.Pairwise (fun a b : Nat × List Char => a.1 ≤ b.1) (linesWithPos fuel cs pos) := by
  intro fuel
  induction fuel with
  | zero => intro cs pos; simp [linesWithPos]
  | succ n ih =>
    intro cs pos
    rw [linesWithPos]
    cases hd : cs.drop ((cs.takeWhile (· ≠ '\n')).length) with
    | nil => simp
    | cons c rest =>
      refine List.Pairwise.cons ?_ (ih rest _)
      intro y hy
      exact le_trans (by omega) (linesWithPos_ge n rest _ y hy)

theorem fixEnds_map_start :
    ∀ l : List Section,
      (fixEnds l).map (fun s => s.start_pos) = l.map (fun s => s.start_pos)
  | [] => rfl
  | [_] => rfl
  | a :: b :: rest => by
    simp only [fixEnds, List.map_cons]
    rw [show (fixEnds (b :: rest)).map (fun s => s.start_pos) =
      (b :: rest).map (fun s => s.start_pos) from fixEnds_map_start (b :: rest)]
    simp

/-- Section start offsets appear in non-decreasing buffer order. -/
theorem find_top_level_sections_start_pairwise (cs : List Char) :
    List.Pairwise (fun a b : Section => a.start_pos ≤ b.start_pos)
      (find_top_level_sections cs) := by
  have h1 : List.Pairwise (fun a b : Nat × List Char => a.1 ≤ b.1) (headingEntries cs) :=
    (linesWithPos_pairwise (cs.length + 1) cs 0).filter _
  have h2 : List.Pairwise (fun a b : Section => a.start_pos ≤ b.start_pos) (rawSections cs) := by
    unfold rawSections
    exact List.pairwise_map.mpr h1
  have h3 : List.Pairwise (fun a b : Section => a.start_pos ≤ b.start_pos)
      (fixEnds (rawSections cs)) := by
    have hm : List.Pairwise (fun a b : Nat => a ≤ b)
        ((fixEnds (rawSections cs)).map (fun s => s.start_pos)) := by
      rw [fixEnds_map_start]
      exact List.pairwise_map.mpr h2
    exact List.pairwise_map.mp hm
  unfold find_top_level_sections
  exact List.pairwise_map.mpr h3

/-- The first section's start is minimal among all sections. -/
theorem sections_head_start_min (cs : List Char) (sec0 sec : Section)
    (h0 : (find_top_level_sections cs).head? = some sec0)
    (hmem : sec ∈ find_top_level_sections cs) : sec0.start_pos ≤ sec.start_pos := by
  have hp := find_top_level_sections_start_pairwise cs
  cases hl : find_top_level_sections cs with
  | nil => rw [hl] at h0; cases h0
  | cons a tail =>
    rw [hl] at h0 hmem hp
    have ha : a = sec0 := by simpa using h0
    subst ha
    rcases List.mem_cons.mp hmem with h1 | h2
    · subst h1; exact le_refl _
    · exact (List.pairwise_cons.mp hp).1 sec h2

/-!  ## Claim theorems  -/

/-- C1: the round-trip claim fails on the code, exposing an indexing bug.
`build_org_file` encodes each responder span shifted by `+1` ("Emacs
1-indexed", per its own comment and its module docstring promising "proper
GPTEL_BOUNDS for the parser"), but `parse_org_file` slices with the decoded
offsets as 0-indexed Python positions.  Building a document from one
responder message "Hi there" and parsing it back yields the responder
content "i there" — shifted one character — instead of "Hi there". -/
theorem c1_roundtrip_offset_bug :
    (parseOrgFile (buildOrgFile [⟨"T", [⟨"assistant", "Hi there"⟩]⟩])).map
        (fun c => (c.messages.filter (fun m => m.role == "assistant")).map (fun m => m.content))
      = [["i there"]] ∧ ("i there" : String) ≠ "Hi there" := by decide

/-- C2 counterexample: the claim says the tagged branch yields exactly the
`(int int)` pairs *following* the `response` token, so `"((1 2) response)"`
should decode to `[]`; the code's `re.findall` scans the whole string and
yields `[(1, 2)]`. -/
theorem c2_counterexample_pair_before_token :
    parse_gptel_bounds "((1 2) response)" = [(1, 2)] ∧
    parse_gptel_bounds "((1 2) response)" ≠ [] := by decide

/-- C2 amended: the Region Locator never raises (it is a total function); an
empty string yields `[]`; when the string contains `"response"` it yields the
`(int int)` pairs found *anywhere* in the string in encounter order (not only
those after the token); otherwise the `(int . int)` dotted pairs in encounter
order; malformed input yields whatever pairs match, possibly none. -/
theorem c2_region_locator_amended :
    parse_gptel_bounds "" = [] ∧
    parse_gptel_bounds "((10 . 20))" = [(10, 20)] ∧
    parse_gptel_bounds "((response (10 20) (30 40)))" = [(10, 20), (30, 40)] ∧
    parse_gptel_bounds "((7 8) response (10 20))" = [(7, 8), (10, 20)] ∧
    parse_gptel_bounds "garbage" = [] ∧
    parse_gptel_bounds "((response (x y)))" = [] ∧
    parse_gptel_bounds "((10 , 20))" = [] := by decide

/-- C4 counterexample: the claim says block delimiter lines are removed while
the enclosed body is preserved verbatim; the code deletes the whole block,
body included — the body "hello" does not survive. -/
theorem c4_counterexample_block_body_deleted :
    strip_org_formatting "#+begin_src\nhello\n#+end_src" = "" ∧
    hasSub "hello".data (strip_org_formatting "#+begin_src\nhello\n#+end_src").data = false := by
  decide

/-- C4 amended: `strip_org_formatting` removes each literal-block, quote-block
and example-block *in its entirety* — delimiters and enclosed body together —
while preserving the text outside the block. -/
theorem c4_blocks_removed_wholesale :
    strip_org_formatting "X#+begin_src\nA\n#+end_src Y" = "X Y" ∧
    strip_org_formatting "X#+begin_quote\nB\n#+end_quote Y" = "X Y" ∧
    strip_org_formatting "X#+begin_example\nC\n#+end_example Y" = "X Y" := by decide

/-- C3 counterexample: the claim includes the empty marker list, but the code
returns `[]` immediately for empty bounds — here the cursor (0) is strictly
before the end of `"hello"` and the stripped trailing span is non-empty, yet
no trailing initiator message is emitted. -/
theorem c3_counterexample_empty_markers :
    extract_messages_from_bounds "hello".data [] = [] ∧
    (0 : Nat) < "hello".data.length ∧
    strip_org_formatting (String.mk (pySlice "hello".data 0 "hello".data.length)) ≠ "" := by
  decide

/-- C3 amended: for every sub-document and every *non-empty* marker list, if
the cursor after the sweep (the end of the last marker in sorted order) is
strictly before the end of the sub-document and the markup-stripped trailing
span is non-empty, the last emitted message is an initiator (user) message
with `char_start` the cursor and `char_end` the sub-document length. -/
theorem c3_trailing_span (cs : List Char) (bounds : List (Nat × Nat))
    (hne : bounds ≠ []) (hcur : finalCursor bounds < cs.length)
    (hstr : strip_org_formatting
      (String.mk (pySlice cs (finalCursor bounds) cs.length)) ≠ "") :
    ∃ ms, extract_messages_from_bounds cs bounds =
      ms ++ [⟨"user",
        strip_org_formatting (String.mk (pySlice cs (finalCursor bounds) cs.length)),
        finalCursor bounds, cs.length⟩] := by
  obtain ⟨ms, hms⟩ := emLoop_decomp cs (sortBounds bounds) 0
  refine ⟨ms, ?_⟩
  unfold extract_messages_from_bounds
  rw [if_neg hne, hms]
  have hfc : (match (sortBounds bounds).getLast? with | some p => p.2 | none => 0)
      = finalCursor bounds := rfl
  rw [hfc]
  congr 1
  simp only [emLoop]
  rw [if_pos hcur]
  simp only [hstr, ne_eq, not_false_eq_true, if_true]

/-- C3 witness: the amended trailing-span rule at a concrete input. -/
theorem c3_trailing_span_witness :
    ([((0 : Nat), (1 : Nat))] ≠ ([] : List (Nat × Nat))) ∧
    finalCursor [(0, 1)] < "ab".data.length ∧
    strip_org_formatting
      (String.mk (pySlice "ab".data (finalCursor [(0, 1)]) "ab".data.length)) ≠ "" ∧
    (∃ ms, extract_messages_from_bounds "ab".data [(0, 1)] =
      ms ++ [⟨"user",
        strip_org_formatting
          (String.mk (pySlice "ab".data (finalCursor [(0, 1)]) "ab".data.length)),
        finalCursor [(0, 1)], "ab".data.length⟩]) :=
  ⟨by decide, by decide, by decide,
    c3_trailing_span "ab".data [(0, 1)] (by decide) (by decide) (by decide)⟩

/-- C5: a marker `(s, e)` is kept for a section `[lo, hi)` iff `lo ≤ s` and
`e ≤ hi` (partial overlaps are excluded), and the conversation a section
produces is built from exactly those markers re-based by subtracting the
section start from both components. -/
theorem c5_section_assignment :
    (∀ (bounds : List (Nat × Nat)) (lo hi : Nat) (p : Nat × Nat),
      p ∈ filter_bounds_for_section bounds lo hi ↔ p ∈ bounds ∧ lo ≤ p.1 ∧ p.2 ≤ hi) ∧
    (∀ (cs : List Char) (fp : GptelProperties) (bs : List (Nat × Nat)) (sec : Section)
      (conv : Conversation), sectionConversation cs fp bs sec = some conv →
      conv.messages = extract_messages_from_bounds
        (pySlice cs sec.start_pos sec.end_pos)
        ((filter_bounds_for_section bs sec.start_pos sec.end_pos).map
          (fun p => (p.1 - sec.start_pos, p.2 - sec.start_pos)))) := by
  constructor
  · intro bounds lo hi p
    simp [filter_bounds_for_section, List.mem_filter, and_assoc]
  · intro cs fp bs sec conv h
    unfold sectionConversation at h
    by_cases h1 : filter_bounds_for_section bs sec.start_pos sec.end_pos = []
    · simp [h1] at h
    · simp only [h1, if_false] at h ⊢
      by_cases h2 : extract_messages_from_bounds (pySlice cs sec.start_pos sec.end_pos)
          ((filter_bounds_for_section bs sec.start_pos sec.end_pos).map
            (fun p => (p.1 - sec.start_pos, p.2 - sec.start_pos))) = []
      · simp [h2] at h
      · simp only [h2, if_false] at h
        cases h
        rfl

/-- C5 witness: the region-to-section rule at a concrete input. -/
theorem c5_section_assignment_witness :
    sectionConversation "ab".data {} [(0, 2)] ⟨"T", 0, 2, none⟩ =
      some ⟨some "T", none, none, [⟨"assistant", "ab", 0, 2⟩]⟩ ∧
    (Conversation.mk (some "T") none none [⟨"assistant", "ab", 0, 2⟩]).messages =
      extract_messages_from_bounds
        (pySlice "ab".data (Section.mk "T" 0 2 none).start_pos (Section.mk "T" 0 2 none).end_pos)
        ((filter_bounds_for_section [(0, 2)] (Section.mk "T" 0 2 none).start_pos
            (Section.mk "T" 0 2 none).end_pos).map
          (fun p => (p.1 - (Section.mk "T" 0 2 none).start_pos,
            p.2 - (Section.mk "T" 0 2 none).start_pos))) :=
  ⟨by decide,
    c5_section_assignment.2 "ab".data {} [(0, 2)] ⟨"T", 0, 2, none⟩
      ⟨some "T", none, none, [⟨"assistant", "ab", 0, 2⟩]⟩ (by decide)⟩

/-- C6: for well-formed, sorted, pairwise non-overlapping markers the
extractor emits at most `2N + 1` messages; the emitted sequence is exactly the
candidate sequence (gap, marker, …, trailing) filtered by non-blank stripped
content; and the candidate roles strictly alternate — so the output alternates
except where a blank candidate was omitted. -/
theorem c6_message_bound_and_alternation (cs : List Char) (bounds : List (Nat × Nat))
    (_h1 : ∀ p ∈ bounds, p.1 < p.2)
    (_h2 : List.Pairwise (fun a b : Nat × Nat => a.1 ≤ b.1) bounds)
    (_h3 : List.Pairwise (fun a b : Nat × Nat => a.2 ≤ b.1) bounds) :
    (extract_messages_from_bounds cs bounds).length ≤ 2 * bounds.length + 1 ∧
    extract_messages_from_bounds cs bounds = (extractCandidates cs bounds).filter msgKeep ∧
    List.Chain' (fun m1 m2 : Message => m1.role ≠ m2.role) (extractCandidates cs bounds) := by
  refine ⟨?_, extract_eq_filter_candidates cs bounds, ?_⟩
  · rw [extract_eq_filter_candidates]
    have hlen : (extractCandidates cs bounds).length ≤ 2 * bounds.length + 1 := by
      unfold extractCandidates
      by_cases hb : bounds = []
      · simp [hb]
      · rw [if_neg hb, candLoop_length]
        have hs : (sortBounds bounds).length = bounds.length := by
          simp [sortBounds]
        omega
    exact le_trans (List.length_filter_le _ _) hlen
  · unfold extractCandidates
    by_cases hb : bounds = []
    · simp [hb]
    · rw [if_neg hb]
      exact candLoop_chain cs _ 0

/-- C6 witness: the bound and alternation at a concrete input. -/
theorem c6_message_bound_and_alternation_witness :
    (∀ p ∈ [((0 : Nat), (1 : Nat))], p.1 < p.2) ∧
    List.Pairwise (fun a b : Nat × Nat => a.1 ≤ b.1) [(0, 1)] ∧
    List.Pairwise (fun a b : Nat × Nat => a.2 ≤ b.1) [(0, 1)] ∧
    ((extract_messages_from_bounds "ab".data [(0, 1)]).length ≤ 2 * [((0 : Nat), (1 : Nat))].length + 1 ∧
    extract_messages_from_bounds "ab".data [(0, 1)] =
      (extractCandidates "ab".data [(0, 1)]).filter msgKeep ∧
    List.Chain' (fun m1 m2 : Message => m1.role ≠ m2.role)
      (extractCandidates "ab".data [(0, 1)])) :=
  ⟨by decide, by decide, by decide,
    c6_message_bound_and_alternation "ab".data [(0, 1)] (by decide) (by decide) (by decide)⟩

/-- C7: a document whose file-level properties hold no region markers yields
zero conversations (even when sections are present); every produced
conversation has a non-empty message list (empty sections are dropped, not
emitted); and the concrete two-heading document with one marker lying wholly
in the second section yields an output list of length exactly 1. -/
theorem c7_empty_results_dropped :
    (∀ content : String,
      (extract_properties_block content.data).1.bounds.getD [] = [] →
        parseOrgFile content = []) ∧
    (∀ (content : String) (conv : Conversation),
      conv ∈ parseOrgFile content → conv.messages ≠ []) ∧
    (parseOrgFile
      ":PROPERTIES:\n:GPTEL_BOUNDS: ((64 . 69))\n:END:\n* One\nhello\n* Two\nworld\n").length
      = 1 := by
  refine ⟨?_, ?_, by decide⟩
  · intro content h
    unfold parseOrgFile
    cases hb : (extract_properties_block content.data).1.bounds with
    | none => simp [hb]
    | some bs =>
      have hbs : bs = [] := by simpa [hb] using h
      simp [hb, hbs]
  · intro content conv h
    unfold parseOrgFile at h
    cases hb : (extract_properties_block content.data).1.bounds with
    | none => simp [hb] at h
    | some bs =>
      simp only [hb] at h
      by_cases hbs : bs = []
      · simp [hbs] at h
      · simp only [hbs, if_false] at h
        by_cases hsec : find_top_level_sections content.data = []
        · simp only [hsec, if_true] at h
          by_cases hm : extract_messages_from_bounds content.data bs = []
          · simp [hm] at h
          · simp only [hm, if_false, List.mem_singleton] at h
            subst h
            exact hm
        · simp only [hsec, if_false] at h
          obtain ⟨sec, _, hconv⟩ := List.mem_filterMap.mp h
          unfold sectionConversation at hconv
          by_cases h1 : filter_bounds_for_section bs sec.start_pos sec.end_pos = []
          · simp [h1] at hconv
          · simp only [h1, if_false] at hconv
            by_cases h2 : extract_messages_from_bounds (pySlice content.data sec.start_pos
                sec.end_pos) ((filter_bounds_for_section bs sec.start_pos sec.end_pos).map
                  (fun p => (p.1 - sec.start_pos, p.2 - sec.start_pos))) = []
            · simp [h2] at hconv
            · simp only [h2, if_false, Option.some.injEq] at hconv
              subst hconv
              exact h2

/-- C7 witness: a document without region markers parses to no conversations. -/
theorem c7_empty_results_dropped_witness :
    (extract_properties_block "no markers here".data).1.bounds.getD [] = [] ∧
    parseOrgFile "no markers here" = [] :=
  ⟨by decide, c7_empty_results_dropped.1 "no markers here" (by decide)⟩

/-- C8: building a document from a single responder-only message whose
rendered content has length 500: the body-relative span is `(53, 553)`, the
fixed-point iteration is stable by the third step, the loop's result is that
stable string, and the emitted pair `(112, 612)` satisfies
`end - start = 500` with each absolute offset equal to the body-relative
offset plus the final header-block length (58) plus 1. -/
theorem c8_fixed_point_serialization :
    (buildBody [⟨"T", [⟨"assistant", String.mk (List.replicate 500 'a')⟩]⟩]).2
      = [(53, 553)] ∧
    boundsStep [(53, 553)] (boundsStep [(53, 553)] (boundsStep [(53, 553)]
      ("((response))".data))) =
      boundsStep [(53, 553)] (boundsStep [(53, 553)] ("((response))".data)) ∧
    boundsFixAux [(53, 553)] 10 ("((response))".data) =
      boundsStep [(53, 553)] (boundsStep [(53, 553)] ("((response))".data)) ∧
    parse_gptel_bounds (String.mk (boundsFixAux [(53, 553)] 10 ("((response))".data)))
      = [(112, 612)] ∧
    612 - 112 = 500 ∧
    112 = 53 + (propsOf (boundsFixAux [(53, 553)] 10 ("((response))".data))).length + 1 ∧
    612 = 553 + (propsOf (boundsFixAux [(53, 553)] 10 ("((response))".data))).length + 1 := by
  refine ⟨by decide, by decide, by decide, by decide, by decide, by decide, by decide⟩

/-- C9 counterexample: the Region Locator does not guarantee `start < end` —
the dotted input `((20 . 10))` decodes to the pair `(20, 10)`. -/
theorem c9_counterexample_unordered_pair :
    parse_gptel_bounds "((20 . 10))" = [(20, 10)] ∧ ¬((20 : Nat) < 10) := by decide

/-- C9 amended: every pair the Region Locator produces is non-negative (the
components are parsed digit strings), but `start < end` is not guaranteed; the
Message Extractor sorts the marker list by `start` before its sweep, so
extraction is invariant under pre-sorting the input. -/
theorem c9_marker_invariant_amended :
    (∀ (s : String) (p : Nat × Nat), p ∈ parse_gptel_bounds s → 0 ≤ p.1 ∧ 0 ≤ p.2) ∧
    (∀ (cs : List Char) (bounds : List (Nat × Nat)),
      extract_messages_from_bounds cs bounds =
        extract_messages_from_bounds cs (sortBounds bounds)) := by
  constructor
  · intro s p _
    exact ⟨Nat.zero_le _, Nat.zero_le _⟩
  · intro cs bounds
    unfold extract_messages_from_bounds
    by_cases hb : bounds = []
    · subst hb; rfl
    · rw [if_neg hb, if_neg (sortBounds_ne_nil hb), sortBounds_idem]

/-- C9 witness: the amended invariant at a concrete input. -/
theorem c9_marker_invariant_amended_witness :
    (((10 : Nat), (20 : Nat)) ∈ parse_gptel_bounds "((10 . 20))") ∧
    (0 ≤ (10 : Nat) ∧ 0 ≤ (20 : Nat)) :=
  ⟨by decide, c9_marker_invariant_amended.1 "((10 . 20))" (10, 20) (by decide)⟩

/-- C10: when a document has at least one top-level heading, the first section
starts at that heading's offset and section starts are non-decreasing, so a
marker whose start lies before the first section start fails the containment
test `s ≥ start_pos` in every section and is excluded from each section's
filtered marker list. -/
theorem c10_pre_heading_markers_excluded (content : List Char) (bounds : List (Nat × Nat))
    (s e : Nat) (sec0 sec : Section)
    (h0 : (find_top_level_sections content).head? = some sec0)
    (hs : s < sec0.start_pos)
    (hmem : sec ∈ find_top_level_sections content) :
    (s, e) ∉ filter_bounds_for_section bounds sec.start_pos sec.end_pos := by
  intro hin
  have hle : sec.start_pos ≤ s := by
    have hf := (List.mem_filter.mp hin).2
    simp only [Bool.and_eq_true, decide_eq_true_eq] at hf
    exact hf.1
  have hmin := sections_head_start_min content sec0 sec h0 hmem
  omega

/-- C10 witness: a marker starting inside the file-level property block is
excluded from the (single) section of a concrete document. -/
theorem c10_pre_heading_markers_excluded_witness :
    (find_top_level_sections ":PROPERTIES:\n:END:\n* A\nhi\n".data).head?
      = some ⟨"A", 19, 26, none⟩ ∧
    (2 : Nat) < 19 ∧
    (⟨"A", 19, 26, none⟩ : Section) ∈ find_top_level_sections ":PROPERTIES:\n:END:\n* A\nhi\n".data ∧
    ((2 : Nat), (5 : Nat)) ∉ filter_bounds_for_section [(2, 5)] 19 26 :=
  ⟨by decide, by decide, by decide,
    c10_pre_heading_markers_excluded ":PROPERTIES:\n:END:\n* A\nhi\n".data [(2, 5)] 2 5
      ⟨"A", 19, 26, none⟩ ⟨"A", 19, 26, none⟩ (by decide) (by decide) (by decide)⟩

end Dailies
